import Mathlib

/-!
Shallow embedding of the polling/diff/notify engine of `steam_status_bot.py`
and of the poller in `ubisoft_server_status.py`.

Python dictionaries are modelled as association lists with insertion-order
semantics (`Dict`): `dLookup` returns the first binding of a key, `dInsert`
replaces an existing binding in place or appends a new one at the end, which
matches CPython dict item assignment.  Network fetches are modelled as
oracles passed in as arguments; a fetch that raises an exception is an
oracle returning `none`.  A function of the source that can raise an
exception is embedded as an `Option`-returning function (`none` = the
exception propagates); where the source also mutates object state before
raising, the embedding returns the mutated state alongside the `Option`.
-/

namespace SteamStatusBot

/-- Dict models a Python dict as an insertion-ordered association list. -/
abbrev Dict (V : Type) := List (String × V)

/-- dKeys is `d.keys()` as a list, in insertion order. -/
def dKeys {V : Type} (d : Dict V) : List String := d.map Prod.fst

/-- dLookup is Python `d[k]` returning `none` instead of raising `KeyError`. -/
def dLookup {V : Type} (k : String) : Dict V → Option V
  | [] => none
  | (k', v) :: rest => if k' = k then some v else dLookup k rest

/-- dInsert is Python `d[k] = v`: replace the existing binding in place, else
append at the end. -/
def dInsert {V : Type} (k : String) (v : V) : Dict V → Dict V
  | [] => [(k, v)]
  | (k', v') :: rest => if k' = k then (k, v) :: rest else (k', v') :: dInsert k v rest

/-- UserStatus is one value of the dict returned by
`SteamStatusFinder.get_is_playing` (src/steam_status_bot.py:273-275):
`{'is_pl': bool, 'game': Optional[str]}`. -/
structure UserStatus where
  is_pl : Bool
  game : Option String
deriving DecidableEq, Repr

/-- RawUsers models the result of `SteamStatusFinder._get_user_status`
(src/steam_status_bot.py:279-287): per user, the player-summary payload,
of which `get_is_playing` reads only the optional `'gameid'` field. -/
abbrev RawUsers := List (String × Option String)

/-- build_game_ids is the dict comprehension of src/steam_status_bot.py:265-266:
`{config['game_ids'][game]['steam_id']: game for game in config['game_ids']}`,
mapping a steam game id back to the configured game name.  `gcfg` lists the
configured games as (game name, steam_id) pairs in config order. -/
def build_game_ids (gcfg : List (String × String)) : Dict String :=
  gcfg.foldl (fun d p => dInsert p.2 p.1 d) []

/-- is_pl_valid_entry is the per-user conditional expression of
src/steam_status_bot.py:273-275:
`{'is_pl': True, 'game': game_ids[gid]} if is_pl[user] and gid in list(game_ids.keys())
 else {'is_pl': False, 'game': None}`
where `is_pl[user]` is `'gameid' in status[user].keys()` (line 269) and
`gid` is `status[user]['gameid']`.  The inner `game_ids[gid]` lookup can in
principle raise `KeyError` (modelled by `none`), but it is guarded by the
membership test. -/
def is_pl_valid_entry (game_ids : Dict String) (rawAct : Option String) : Option UserStatus :=
  match rawAct with
  | none => some ⟨false, none⟩
  | some gid =>
    if (dKeys game_ids).contains gid then
      match dLookup gid game_ids with
      | some g => some ⟨true, some g⟩
      | none => none
    else some ⟨false, none⟩

/-- usersFromRaw maps `is_pl_valid_entry` over the fetched user summaries,
preserving the user-key order, as the dict comprehension at
src/steam_status_bot.py:273-275 does; `none` if any entry raises. -/
def usersFromRaw (game_ids : Dict String) : RawUsers → Option (Dict UserStatus)
  | [] => some []
  | p :: rest =>
    match is_pl_valid_entry game_ids p.2, usersFromRaw game_ids rest with
    | some v, some l => some ((p.1, v) :: l)
    | _, _ => none

/-- get_is_playing is `SteamStatusFinder.get_is_playing`
(src/steam_status_bot.py:260-277) applied to an already-fetched `raw`
result of `_get_user_status` (the HTTP part is the caller's oracle).
The `states = config['personastates']` binding of line 261 is dead in this
method and omitted. -/
def get_is_playing (gcfg : List (String × String)) (raw : RawUsers) : Option (Dict UserStatus) :=
  usersFromRaw (build_game_ids gcfg) raw

/-- user_diff_aux is the user loop of `TelegramBot.define_job_queue`
(src/steam_status_bot.py:116-124), with `baseline = self.user_status` and the
snapshot entries iterated in dict order.  `none` models an exception
aborting the tick: `KeyError` from `self.user_status[user]` (line 117), or
`TypeError` from `' ' + None` (line 123) when `is_pl` is true with no game. -/
def user_diff_aux (baseline : Dict UserStatus) : Dict UserStatus → Bool → String → Option (Bool × String)
  | [], dd, msg => some (dd, msg)
  | (user, new_s) :: rest, dd, msg =>
    match dLookup user baseline with
    | none => none
    | some old =>
      if new_s.is_pl = old.is_pl then
        user_diff_aux baseline rest dd msg
      else
        match (if new_s.is_pl then new_s.game.map (fun g => " " ++ g) else some "") with
        | none => none
        | some gameStr =>
          user_diff_aux baseline rest true
            (msg ++ user ++ " " ++ (if new_s.is_pl then "started" else "stopped")
                 ++ " playing" ++ gameStr ++ ".\n")

/-- server_diff_aux is the server loop of `TelegramBot.define_job_queue`
(src/steam_status_bot.py:130-136): `botServer` is the dict read through
`self.server_status` (line 131) and the snapshot entries are iterated in
dict order (line 130). -/
def server_diff_aux (botServer : Dict String) : Dict String → Bool → String → Option (Bool × String)
  | [], dd, msg => some (dd, msg)
  | (game, new_s) :: rest, dd, msg =>
    match dLookup game botServer with
    | none => none
    | some old =>
      if new_s = old then server_diff_aux botServer rest dd msg
      else server_diff_aux botServer rest true (msg ++ "Servers for " ++ game ++ " are " ++ new_s ++ ".\n")

/-- UbiConfig holds the configuration read by `UbiServerStatusFinder`:
`ubipoller_interv_min` (src/steam_status_bot.py:333, in minutes) and
`game_ids`, a list of configured games with their optional `'ubi_id'`
(line 338: games without a `'ubi_id'` entry are skipped). -/
structure UbiConfig where
  interval_min : Nat
  game_ids : List (String × Option String)
deriving DecidableEq, Repr

/-- UbiState is the mutable state of `UbiServerStatusFinder`
(src/steam_status_bot.py:312-316): `server_status`, `_last_update`
(modelled in whole seconds), and `is_first_time`. -/
structure UbiState where
  server_status : Dict String
  last_update : Nat
  is_first_time : Bool
deriving DecidableEq, Repr

/-- initUbiState is `UbiServerStatusFinder.__init__` (src/steam_status_bot.py:312-316):
empty status dict, `_last_update = datetime.now()` (the construction time `t0`),
`is_first_time = True`. -/
def initUbiState (t0 : Nat) : UbiState :=
  { server_status := [], last_update := t0, is_first_time := true }

/-- fetch_loop is the fetch loop of `UbiServerStatusFinder.run_query`
(src/steam_status_bot.py:337-344): games without a `'ubi_id'` are skipped
(`continue`, line 339); otherwise `urlopen`/`json.load`/indexing is the
oracle `fetch` on the game's ubi id, and `self.server_status[game]` is
assigned the result.  Returns the (possibly partially) mutated dict and
`false` when a fetch raised, in which case the remaining games are not
visited and the exception propagates. -/
def fetch_loop (fetch : String → Option String) : List (String × Option String) → Dict String → Dict String × Bool
  | [], d => (d, true)
  | (_, none) :: rest, d => fetch_loop fetch rest d
  | (game, some uid) :: rest, d =>
    match fetch uid with
    | none => (d, false)
    | some status => fetch_loop fetch rest (dInsert game status d)

/-- run_query is `UbiServerStatusFinder.run_query` (src/steam_status_bot.py:330-348).
`now` is `datetime.now()` in seconds; `sec_since_last` is `now - _last_update`
and the fetch branch is taken when `sec_since_last > interval*60` or on the
first call.  Note the source never assigns `self._last_update` after
`__init__`.  Returns the updated finder state, and `some` of the returned
dict `self.server_status` (line 348), or `none` when a fetch raised (then
`is_first_time` at line 345 is not reached, and the partially mutated state
is kept). -/
def run_query (cfg : UbiConfig) (fetch : String → Option String) (now : Nat) (st : UbiState) :
    UbiState × Option (Dict String) :=
  let sec_since_last := now - st.last_update
  if decide (sec_since_last > cfg.interval_min * 60) || st.is_first_time then
    match fetch_loop fetch cfg.game_ids st.server_status with
    | (d, true) => ({ st with server_status := d, is_first_time := false }, some d)
    | (d, false) => ({ st with server_status := d }, none)
  else
    (st, some st.server_status)

/-- BotConfig holds the configuration read by `TelegramBot` and its finders:
per game the required `'steam_id'` (src/steam_status_bot.py:265) and the
Ubisoft poller configuration. -/
structure BotConfig where
  gameSteamIds : List (String × String)
  ubi : UbiConfig
deriving DecidableEq, Repr

/-- BotState is the mutable state of `TelegramBot` relevant to the tick:
`self.user_status`, and the `UbiServerStatusFinder` state.  The attribute
`self.server_status` is not a separate field: `TelegramBot.__init__`
(line 56) binds it to the return value of `run_query`, which is the finder's
own `server_status` dict (line 348), and every later rebinding (line 138)
rebinds it to the same object — so `self.server_status` always aliases
`ubi.server_status` and reads of it see the finder's in-place mutations. -/
structure BotState where
  user_status : Dict UserStatus
  ubi : UbiState
deriving DecidableEq, Repr

/-- define_job_queue is `TelegramBot.define_job_queue`
(src/steam_status_bot.py:110-140).  `rawUsers` is the oracle for
`_get_user_status` inside `get_is_playing` (line 115; `none` = the HTTP
fetch raised), `fetchUbi` the oracle for the Ubisoft fetches inside
`run_query` (line 129).  Returns the bot state after whatever mutations
happened, and `some (do_display, msg)` (line 140), or `none` when an
exception propagated and aborted the tick.  In the server loop, the read
`self.server_status[game]` (line 131) goes through the alias of the dict
`run_query` just returned (see `BotState`), hence `server_diff_aux` receives
`new_server` for both the baseline and the snapshot; the assignment at
line 138 rebinds the alias to the same object and is stateless here. -/
def define_job_queue (cfg : BotConfig) (rawUsers : Option RawUsers)
    (fetchUbi : String → Option String) (now : Nat) (st : BotState) :
    BotState × Option (Bool × String) :=
  match rawUsers with
  | none => (st, none)
  | some raw =>
    match get_is_playing cfg.gameSteamIds raw with
    | none => (st, none)
    | some new_user =>
      match user_diff_aux st.user_status new_user false "" with
      | none => (st, none)
      | some p1 =>
        let st1 : BotState := { st with user_status := new_user }
        let q := run_query cfg.ubi fetchUbi now st1.ubi
        let st2 : BotState := { st1 with ubi := q.1 }
        match q.2 with
        | none => (st2, none)
        | some new_server =>
          match server_diff_aux new_server new_server p1.1 p1.2 with
          | none => (st2, none)
          | some p2 => (st2, some p2)

/-- callback_status is `_callback_status` of `TelegramBot.configure_bot`
(src/steam_status_bot.py:159-173): run `define_job_queue`; if `do_display`
send `msg` (`Except.ok (some msg)`), else send nothing (`Except.ok none`).
An exception from `define_job_queue` propagates out of the callback
(`Except.error ()`), aborting the tick without sending. -/
def callback_status (cfg : BotConfig) (rawUsers : Option RawUsers)
    (fetchUbi : String → Option String) (now : Nat) (st : BotState) :
    BotState × Except Unit (Option String) :=
  let r := define_job_queue cfg rawUsers fetchUbi now st
  (r.1,
   match r.2 with
   | none => Except.error ()
   | some p => Except.ok (if p.1 then some p.2 else none))

/-- bot_init is the tail of `TelegramBot.__init__` (src/steam_status_bot.py:54-57):
the initial unconditional calls `self.user_status = get_is_playing()` and
`self.server_status = run_query()` that seed both baselines, with the
`UbiServerStatusFinder` freshly constructed at time `t0` (so its first
`run_query` takes the `is_first_time` branch).  `none` when either initial
fetch raised (then `__init__` itself fails). -/
def bot_init (cfg : BotConfig) (rawUsers : Option RawUsers)
    (fetchUbi : String → Option String) (t0 : Nat) : Option BotState :=
  match rawUsers with
  | none => none
  | some raw =>
    match get_is_playing cfg.gameSteamIds raw with
    | none => none
    | some us =>
      let q := run_query cfg.ubi fetchUbi t0 (initUbiState t0)
      match q.2 with
      | none => none
      | some _ => some { user_status := us, ubi := q.1 }

/-- PollerState is the mutable state of `UbisoftServerStatusPoller`
(src/ubisoft_server_status.py:25-28): `last_seen_status` and the
`print_on_first_run` flag. -/
structure PollerState where
  last_seen_status : Option String
  print_on_first_run : Bool
deriving DecidableEq, Repr

/-- pollerCall is `UbisoftServerStatusPoller.__call__`
(src/ubisoft_server_status.py:30-48).  `fetchStatus` is the oracle for
`self.status_checker()['Status']` (line 33): `Except.error e` when the
fetch, the JSON parse, or the `['Status']` extraction raises (any
`Exception`, caught at line 43, leaving `message = ''` and
`last_seen_status` untouched).  Returns the new state and
`(len(message) > 0, message)` (line 48). -/
def pollerCall (fetchStatus : Except String String) (st : PollerState) :
    PollerState × (Bool × String) :=
  match fetchStatus with
  | Except.error _ => (st, (false, ""))
  | Except.ok current =>
    let message :=
      match st.last_seen_status with
      | some last =>
        if current ≠ last then
          "Server status change from " ++ last ++ " to " ++ current ++ "."
        else ""
      | none =>
        if st.print_on_first_run then
          "Good morning! Server status this lovely day is: " ++ current ++ "."
        else ""
    ({ st with last_seen_status := some current }, (message.length != 0, message))

end SteamStatusBot

namespace SteamStatusBot

/-- linesConcat concatenates a list of already-formatted lines, the reference
combinator used to characterise the message accumulated by the diff loops. -/
def linesConcat : List String → String
  | [] => ""
  | s :: rest => s ++ linesConcat rest

/-- userChanged states premise of line 120 of src/steam_status_bot.py: the user
loop treats an entry as changed exactly when its `is_pl` flag differs from the
baseline's (the `game` label is not consulted). -/
def userChanged (baseline : Dict UserStatus) (p : String × UserStatus) : Bool :=
  match dLookup p.1 baseline with
  | some old => p.2.is_pl != old.is_pl
  | none => false

/-- userLine is the transition line built at lines 122-124 of
src/steam_status_bot.py for a changed entry. -/
def userLine (p : String × UserStatus) : String :=
  p.1 ++ " " ++ (if p.2.is_pl then "started" else "stopped") ++ " playing"
    ++ (if p.2.is_pl then " " ++ p.2.game.getD "" else "") ++ ".\n"

theorem isSome_dLookup_of_contains {V : Type} (g : String) (d : Dict V)
    (h : (dKeys d).contains g = true) : (dLookup g d).isSome = true := by
  induction d with
  | nil => simp [dKeys] at h
  | cons q rest ih =>
    obtain ⟨k, v⟩ := q
    by_cases hk : k = g
    · simp [dLookup, hk]
    · simp only [dKeys, List.map_cons, List.contains_cons] at h
      simp only [dLookup, if_neg hk]
      rcases Bool.or_eq_true_iff.mp h with h1 | h1
      · exact absurd ((beq_iff_eq.mp h1).symm) hk
      · exact ih h1

theorem dLookup_self_of_nodup {V : Type} (d : Dict V) (h : (dKeys d).Nodup) :
    ∀ p ∈ d, dLookup p.1 d = some p.2 := by
  induction d with
  | nil => intro p hp; cases hp
  | cons q rest ih =>
    obtain ⟨hq, hrest⟩ := List.nodup_cons.mp h
    intro p hp
    rcases List.mem_cons.mp hp with rfl | hp'
    · simp [dLookup]
    · have hne : q.1 ≠ p.1 := by
        intro hcontra
        exact hq (hcontra ▸ List.mem_map_of_mem Prod.fst hp')
      simpa [dLookup, if_neg hne] using ih hrest p hp'

theorem user_diff_aux_of_agree (b : Dict UserStatus) :
    ∀ (snap : Dict UserStatus) (dd : Bool) (msg : String),
    (∀ p ∈ snap, dLookup p.1 b = some p.2) →
    user_diff_aux b snap dd msg = some (dd, msg) := by
  intro snap
  induction snap with
  | nil => intro dd msg _; rfl
  | cons q rest ih =>
    intro dd msg h
    obtain ⟨u, v⟩ := q
    have hq := h (u, v) (List.mem_cons_self _ _)
    simp only [user_diff_aux, hq, if_pos rfl]
    exact ih dd msg (fun p hp => h p (List.mem_cons_of_mem _ hp))

theorem server_diff_aux_of_agree (b : Dict String) :
    ∀ (snap : Dict String) (dd : Bool) (msg : String),
    (∀ p ∈ snap, dLookup p.1 b = some p.2) →
    server_diff_aux b snap dd msg = some (dd, msg) := by
  intro snap
  induction snap with
  | nil => intro dd msg _; rfl
  | cons q rest ih =>
    intro dd msg h
    obtain ⟨u, v⟩ := q
    have hq := h (u, v) (List.mem_cons_self _ _)
    simp only [server_diff_aux, hq, if_pos rfl]
    exact ih dd msg (fun p hp => h p (List.mem_cons_of_mem _ hp))

theorem user_diff_aux_characterization (b : Dict UserStatus) :
    ∀ (snap : Dict UserStatus) (dd : Bool) (msg : String),
    (∀ p ∈ snap, (dLookup p.1 b).isSome = true) →
    (∀ p ∈ snap, p.2.is_pl = true → p.2.game.isSome = true) →
    user_diff_aux b snap dd msg =
      some (dd || snap.any (userChanged b),
            msg ++ linesConcat ((snap.filter (userChanged b)).map userLine)) := by
  intro snap
  induction snap with
  | nil => intro dd msg _ _; simp [user_diff_aux, linesConcat]
  | cons q rest ih =>
    intro dd msg h1 h2
    obtain ⟨u, v⟩ := q
    obtain ⟨old, hold⟩ := Option.isSome_iff_exists.mp (h1 (u, v) (List.mem_cons_self _ _))
    have h1' : ∀ p ∈ rest, (dLookup p.1 b).isSome = true :=
      fun p hp => h1 p (List.mem_cons_of_mem _ hp)
    have h2' : ∀ p ∈ rest, p.2.is_pl = true → p.2.game.isSome = true :=
      fun p hp => h2 p (List.mem_cons_of_mem _ hp)
    have hch : userChanged b (u, v) = (v.is_pl != old.is_pl) := by
      simp [userChanged, hold]
    by_cases heq : v.is_pl = old.is_pl
    · have hchf : userChanged b (u, v) = false := by simp [hch, heq]
      simp only [user_diff_aux, hold, if_pos heq]
      rw [ih dd msg h1' h2']
      simp [hchf]
    · have hcht : userChanged b (u, v) = true := by simp [hch]; exact heq
      rcases hvb : v.is_pl with _ | _
      · -- stopped: game string is ''
        simp only [user_diff_aux, hold, hvb]
        rw [if_neg (by simpa [hvb] using heq)]
        simp only [Bool.false_eq_true, if_neg (by simp : ¬False), reduceIte]
        rw [ih true _ h1' h2']
        simp only [List.any_cons, List.filter_cons, hcht, Bool.true_or, Bool.or_true,
          List.map_cons, linesConcat, userLine, hvb]
        simp [String.append_assoc]
      · -- started: game must be present
        obtain ⟨g, hg⟩ := Option.isSome_iff_exists.mp (h2 (u, v) (List.mem_cons_self _ _) hvb)
        have hg2 : v.game = some g := hg
        simp only [user_diff_aux, hold, hvb]
        rw [if_neg (by simpa [hvb] using heq)]
        simp only [hg2, Option.map_some', reduceIte]
        rw [ih true _ h1' h2']
        simp only [List.any_cons, List.filter_cons, hcht, Bool.true_or, Bool.or_true,
          List.map_cons, linesConcat, userLine, hvb, hg2]
        simp [String.append_assoc]

end SteamStatusBot

namespace SteamStatusBot

theorem is_pl_valid_entry_isSome (gi : Dict String) (r : Option String) :
    (is_pl_valid_entry gi r).isSome = true := by
  cases r with
  | none => rfl
  | some gid =>
    simp only [is_pl_valid_entry]
    by_cases h : (dKeys gi).contains gid = true
    · obtain ⟨g, hg⟩ := Option.isSome_iff_exists.mp (isSome_dLookup_of_contains gid gi h)
      have hm : gid ∈ dKeys gi := by simpa using h
      simp [hm, hg]
    · have hm : ¬(gid ∈ dKeys gi) := by simpa using h
      simp [hm]

theorem usersFromRaw_isSome (gi : Dict String) (raw : RawUsers) :
    (usersFromRaw gi raw).isSome = true := by
  induction raw with
  | nil => rfl
  | cons p rest ih =>
    obtain ⟨v, hv⟩ := Option.isSome_iff_exists.mp (is_pl_valid_entry_isSome gi p.2)
    obtain ⟨l, hl⟩ := Option.isSome_iff_exists.mp ih
    simp [usersFromRaw, hv, hl]

theorem usersFromRaw_keys (gi : Dict String) :
    ∀ (raw : RawUsers) (l : Dict UserStatus),
    usersFromRaw gi raw = some l → dKeys l = raw.map Prod.fst := by
  intro raw
  induction raw with
  | nil =>
    intro l hl
    simp only [usersFromRaw] at hl
    cases hl
    rfl
  | cons p rest ih =>
    intro l hl
    simp only [usersFromRaw] at hl
    cases hv : is_pl_valid_entry gi p.2 with
    | none => rw [hv] at hl; cases hl
    | some v =>
      cases hrest : usersFromRaw gi rest with
      | none => rw [hv, hrest] at hl; cases hl
      | some l' =>
        rw [hv, hrest] at hl
        cases hl
        simp only [dKeys, List.map_cons]
        exact congrArg (List.cons p.1) (ih l' hrest)

theorem usersFromRaw_mem (gi : Dict String) :
    ∀ (raw : RawUsers) (l : Dict UserStatus) (u : String) (r : Option String),
    usersFromRaw gi raw = some l → (u, r) ∈ raw →
    ∃ v, is_pl_valid_entry gi r = some v ∧ (u, v) ∈ l := by
  intro raw
  induction raw with
  | nil => intro l u r _ hmem; cases hmem
  | cons p rest ih =>
    intro l u r hl hmem
    simp only [usersFromRaw] at hl
    cases hv : is_pl_valid_entry gi p.2 with
    | none => rw [hv] at hl; cases hl
    | some v =>
      cases hrest : usersFromRaw gi rest with
      | none => rw [hv, hrest] at hl; cases hl
      | some l' =>
        rw [hv, hrest] at hl
        cases hl
        rcases List.mem_cons.mp hmem with heq | hmem'
        · cases heq
          exact ⟨v, hv, List.mem_cons_self _ _⟩
        · obtain ⟨w, hw1, hw2⟩ := ih l' u r hrest hmem'
          exact ⟨w, hw1, List.mem_cons_of_mem _ hw2⟩

theorem mem_dKeys_dInsert {V : Type} (g k : String) (v : V) :
    ∀ (d : Dict V), g ∈ dKeys (dInsert k v d) ↔ (g = k ∨ g ∈ dKeys d) := by
  intro d
  induction d with
  | nil => simp [dInsert, dKeys]
  | cons q rest ih =>
    obtain ⟨k', v'⟩ := q
    by_cases hk : k' = k
    · rw [show dInsert k v ((k', v') :: rest) = (k, v) :: rest from by simp [dInsert, hk]]
      simp only [dKeys, List.map_cons, List.mem_cons]
      subst hk
      tauto
    · rw [show dInsert k v ((k', v') :: rest) = (k', v') :: dInsert k v rest from by
        simp [dInsert, hk]]
      simp only [dKeys, List.map_cons, List.mem_cons]
      rw [show (List.map Prod.fst (dInsert k v rest) = dKeys (dInsert k v rest)) from rfl]
      rw [ih]
      tauto

theorem nodup_dKeys_dInsert {V : Type} (k : String) (v : V) :
    ∀ (d : Dict V), (dKeys d).Nodup → (dKeys (dInsert k v d)).Nodup := by
  intro d
  induction d with
  | nil => intro _; simp [dInsert, dKeys]
  | cons q rest ih =>
    obtain ⟨k', v'⟩ := q
    intro h
    obtain ⟨hq, hrest⟩ := List.nodup_cons.mp h
    by_cases hk : k' = k
    · subst hk
      simp only [dInsert, if_pos rfl, dKeys, List.map_cons]
      exact List.nodup_cons.mpr ⟨hq, hrest⟩
    · simp only [dInsert, if_neg hk, dKeys, List.map_cons]
      refine List.nodup_cons.mpr ⟨?_, ih hrest⟩
      intro hmem
      rcases (mem_dKeys_dInsert k' k v rest).mp hmem with h1 | h1
      · exact hk h1
      · exact hq h1

theorem fetch_loop_snd_of_total (fetch : String → Option String)
    (hf : ∀ uid, (fetch uid).isSome = true) :
    ∀ (gs : List (String × Option String)) (d : Dict String),
    (fetch_loop fetch gs d).2 = true := by
  intro gs
  induction gs with
  | nil => intro d; rfl
  | cons p rest ih =>
    intro d
    obtain ⟨g, uid?⟩ := p
    cases uid? with
    | none => exact ih d
    | some uid =>
      obtain ⟨s, hs⟩ := Option.isSome_iff_exists.mp (hf uid)
      simp only [fetch_loop, hs]
      exact ih _

theorem fetch_loop_nodup (fetch : String → Option String) :
    ∀ (gs : List (String × Option String)) (d : Dict String),
    (dKeys d).Nodup → (dKeys (fetch_loop fetch gs d).1).Nodup := by
  intro gs
  induction gs with
  | nil => intro d h; exact h
  | cons p rest ih =>
    intro d h
    obtain ⟨g, uid?⟩ := p
    cases uid? with
    | none => exact ih d h
    | some uid =>
      cases hs : fetch uid with
      | none => simpa [fetch_loop, hs] using h
      | some s =>
        simp only [fetch_loop, hs]
        exact ih _ (nodup_dKeys_dInsert g s d h)

theorem fetch_loop_keys_mono (fetch : String → Option String) :
    ∀ (gs : List (String × Option String)) (d : Dict String) (g : String),
    g ∈ dKeys d → g ∈ dKeys (fetch_loop fetch gs d).1 := by
  intro gs
  induction gs with
  | nil => intro d g h; exact h
  | cons p rest ih =>
    intro d g h
    obtain ⟨game, uid?⟩ := p
    cases uid? with
    | none => exact ih d g h
    | some uid =>
      cases hs : fetch uid with
      | none => simpa [fetch_loop, hs] using h
      | some s =>
        simp only [fetch_loop, hs]
        exact ih _ g ((mem_dKeys_dInsert g game s d).mpr (Or.inr h))

theorem fetch_loop_keys_src (fetch : String → Option String) :
    ∀ (gs : List (String × Option String)) (d : Dict String) (g : String),
    g ∈ dKeys (fetch_loop fetch gs d).1 →
    g ∈ dKeys d ∨ ∃ uid, (g, some uid) ∈ gs := by
  intro gs
  induction gs with
  | nil => intro d g h; exact Or.inl h
  | cons p rest ih =>
    intro d g h
    obtain ⟨game, uid?⟩ := p
    cases uid? with
    | none =>
      rcases ih d g h with h1 | ⟨uid, h1⟩
      · exact Or.inl h1
      · exact Or.inr ⟨uid, List.mem_cons_of_mem _ h1⟩
    | some uid =>
      cases hs : fetch uid with
      | none =>
        simp only [fetch_loop, hs] at h
        exact Or.inl h
      | some s =>
        simp only [fetch_loop, hs] at h
        rcases ih _ g h with h1 | ⟨uid', h1⟩
        · rcases (mem_dKeys_dInsert g game s d).mp h1 with h2 | h2
          · exact Or.inr ⟨uid, by rw [h2]; exact List.mem_cons_self _ _⟩
          · exact Or.inl h2
        · exact Or.inr ⟨uid', List.mem_cons_of_mem _ h1⟩

theorem run_query_of_total (cfg : UbiConfig) (fetch : String → Option String)
    (now : Nat) (st : UbiState) (hf : ∀ uid, (fetch uid).isSome = true) :
    ∃ st', run_query cfg fetch now st = (st', some st'.server_status) ∧
      ((dKeys st.server_status).Nodup → (dKeys st'.server_status).Nodup) := by
  simp only [run_query]
  cases hb : (decide (now - st.last_update > cfg.interval_min * 60) || st.is_first_time) with
  | false =>
    refine ⟨st, ?_, fun h => h⟩
    simp
  | true =>
    cases hfl : fetch_loop fetch cfg.game_ids st.server_status with
    | mk d b =>
      have hb2 : b = true := by
        have := fetch_loop_snd_of_total fetch hf cfg.game_ids st.server_status
        rw [hfl] at this
        exact this
      subst hb2
      refine ⟨{ st with server_status := d, is_first_time := false }, by simp [hfl], ?_⟩
      intro h
      have := fetch_loop_nodup fetch cfg.game_ids st.server_status h
      rw [hfl] at this
      exact this

theorem user_diff_aux_missing_key (b : Dict UserStatus) :
    ∀ (snap : Dict UserStatus) (dd : Bool) (msg : String) (u : String) (v : UserStatus),
    (u, v) ∈ snap → dLookup u b = none →
    user_diff_aux b snap dd msg = none := by
  intro snap
  induction snap with
  | nil => intro dd msg u v hmem; cases hmem
  | cons q rest ih =>
    intro dd msg u v hmem hnone
    obtain ⟨u', v'⟩ := q
    rcases List.mem_cons.mp hmem with heq | hmem'
    · cases heq
      simp [user_diff_aux, hnone]
    · cases hold : dLookup u' b with
      | none => simp [user_diff_aux, hold]
      | some old =>
        by_cases heq2 : v'.is_pl = old.is_pl
        · simp only [user_diff_aux, hold, if_pos heq2]
          exact ih dd msg u v hmem' hnone
        · simp only [user_diff_aux, hold, if_neg heq2]
          cases hgs : (if v'.is_pl = true then Option.map (fun g => " " ++ g) v'.game else some "") with
          | none => rfl
          | some gameStr => exact ih true _ u v hmem' hnone

end SteamStatusBot

namespace SteamStatusBot

theorem run_query_cases (cfg : UbiConfig) (fetch : String → Option String)
    (now : Nat) (st : UbiState) :
    run_query cfg fetch now st = (st, some st.server_status) ∨
    (∃ d, fetch_loop fetch cfg.game_ids st.server_status = (d, true) ∧
      run_query cfg fetch now st =
        ({ st with server_status := d, is_first_time := false }, some d)) ∨
    (∃ d, fetch_loop fetch cfg.game_ids st.server_status = (d, false) ∧
      run_query cfg fetch now st = ({ st with server_status := d }, none)) := by
  simp only [run_query]
  cases hb : (decide (now - st.last_update > cfg.interval_min * 60) || st.is_first_time) with
  | false => exact Or.inl (by simp)
  | true =>
    cases hfl : fetch_loop fetch cfg.game_ids st.server_status with
    | mk d b =>
      cases b
      · exact Or.inr (Or.inr ⟨d, rfl, by simp⟩)
      · exact Or.inr (Or.inl ⟨d, rfl, by simp⟩)

/-- exUbiCfg is a concrete one-game Ubisoft configuration used by the
witnesses and counterexamples: a 1-minute polling interval and one game
with a configured `ubi_id`. -/
def exUbiCfg : UbiConfig :=
  { interval_min := 1, game_ids := [("Rainbow Six Siege", some "e3d5ea9e")] }

/-- exCfg is a concrete bot configuration with one tracked game. -/
def exCfg : BotConfig :=
  { gameSteamIds := [("Rainbow Six Siege", "359550")], ubi := exUbiCfg }

/-- exBaseState is a concrete bot state after start-up: one tracked player
not playing, the game's servers last observed "online", and the Ubisoft
finder past its first fetch. -/
def exBaseState : BotState :=
  { user_status := [("alice", ⟨false, none⟩)],
    ubi := { server_status := [("Rainbow Six Siege", "online")], last_update := 0,
             is_first_time := false } }

/-- C1: the claim says that when the baseline maps a game to "online" and the
next fetched snapshot maps it to "interrupted", the tick reports
changed=true and the message contains the transition.  The code does the
opposite: because `TelegramBot.server_status` permanently aliases the
finder's `server_status` dict (mutated in place by `run_query` before the
comparison loop runs), `old_status` at line 131 always equals `new_status`,
so after a seeded baseline of "online" a fetch of "interrupted" yields
`do_display = false` and an empty message, while the baseline dict has
already silently moved to "interrupted". -/
theorem c1_server_transition_silently_dropped :
    bot_init exCfg (some [("alice", none)]) (fun _ => some "online") 0 = some exBaseState ∧
    define_job_queue exCfg (some [("alice", none)]) (fun _ => some "interrupted") 120 exBaseState =
      ({ user_status := [("alice", ⟨false, none⟩)],
         ubi := { server_status := [("Rainbow Six Siege", "interrupted")], last_update := 0,
                  is_first_time := false } },
       some (false, "")) := by
  exact ⟨rfl, rfl⟩

/-- C2: the claim says a fetch failure in one source is caught and isolated,
the other source's change line still appearing.  The code has no exception
handling in the tick: here the steam fetch succeeds with a real change
(alice started playing), the Ubisoft fetch raises, and the whole tick
aborts (`none`) — no message at all is produced (the other source's line is
lost), and the user baseline was already overwritten, so the change is
never reported on later ticks either.  `callback_status` propagates the
exception instead of sending anything. -/
theorem c2_fetch_error_aborts_tick :
    define_job_queue exCfg (some [("alice", some "359550")]) (fun _ => none) 120 exBaseState =
      ({ user_status := [("alice", ⟨true, some "Rainbow Six Siege"⟩)], ubi := exBaseState.ubi },
       none) ∧
    callback_status exCfg (some [("alice", some "359550")]) (fun _ => none) 120 exBaseState =
      ({ user_status := [("alice", ⟨true, some "Rainbow Six Siege"⟩)], ubi := exBaseState.ubi },
       Except.error ()) := by
  exact ⟨rfl, rfl⟩

/-- C3: the claim says every real fetch records its time as the last-fetch
timestamp, so a second call 10 s after a fetch returns the cached snapshot.
The code never assigns `self._last_update` after `__init__`: after the
first fetch at t = 120 s the timestamp is still 0, so a second call at
t = 130 s (10 s later, with a 60 s minimum interval) performs a fresh fetch
and returns the new value instead of the cache. -/
theorem c3_throttle_timestamp_never_updated :
    run_query exUbiCfg (fun _ => some "online") 120 (initUbiState 0) =
      ({ server_status := [("Rainbow Six Siege", "online")], last_update := 0,
         is_first_time := false },
       some [("Rainbow Six Siege", "online")]) ∧
    run_query exUbiCfg (fun _ => some "interrupted") 130
      { server_status := [("Rainbow Six Siege", "online")], last_update := 0,
        is_first_time := false } =
      ({ server_status := [("Rainbow Six Siege", "interrupted")], last_update := 0,
         is_first_time := false },
       some [("Rainbow Six Siege", "interrupted")]) := by
  exact ⟨rfl, rfl⟩

/-- C9: `UbisoftServerStatusPoller.__call__` catches every exception from the
fetch/parse: on any error outcome it returns `(False, '')` and leaves
`last_seen_status` (and the whole poller state) unchanged. -/
theorem c9_poller_error_atomic (st : PollerState) (e : String) :
    pollerCall (Except.error e) st = (st, (false, "")) := rfl

/-- C10: `run_query` never removes entries from `server_status`: every key
present before a call is still present afterwards, every key present
afterwards was either already there or is a configured game with a
`ubi_id`, and the snapshot returned on a normal return is exactly the
(grown) `server_status` dict. -/
theorem c10_server_status_keys_monotone (cfg : UbiConfig) (fetch : String → Option String)
    (now : Nat) (st : UbiState) :
    (∀ g ∈ dKeys st.server_status, g ∈ dKeys (run_query cfg fetch now st).1.server_status) ∧
    (∀ g ∈ dKeys (run_query cfg fetch now st).1.server_status,
        g ∈ dKeys st.server_status ∨ ∃ uid, (g, some uid) ∈ cfg.game_ids) ∧
    (∀ d, (run_query cfg fetch now st).2 = some d →
        d = (run_query cfg fetch now st).1.server_status) := by
  rcases run_query_cases cfg fetch now st with heq | ⟨d, hfl, heq⟩ | ⟨d, hfl, heq⟩
  · rw [heq]
    refine ⟨fun g hg => hg, fun g hg => Or.inl hg, ?_⟩
    intro d hd
    simpa using hd.symm
  · rw [heq]
    refine ⟨?_, ?_, ?_⟩
    · intro g hg
      have h := fetch_loop_keys_mono fetch cfg.game_ids st.server_status g hg
      rw [hfl] at h
      exact h
    · intro g hg
      exact fetch_loop_keys_src fetch cfg.game_ids st.server_status g (by rw [hfl]; exact hg)
    · intro d2 hd2
      simpa using hd2.symm
  · rw [heq]
    refine ⟨?_, ?_, ?_⟩
    · intro g hg
      have h := fetch_loop_keys_mono fetch cfg.game_ids st.server_status g hg
      rw [hfl] at h
      exact h
    · intro g hg
      exact fetch_loop_keys_src fetch cfg.game_ids st.server_status g (by rw [hfl]; exact hg)
    · intro d2 hd2
      cases hd2

/-- C10 witness: at a concrete state and fetch, the previously present key is
still present after the call. -/
theorem c10_server_status_keys_monotone_witness :
    "Rainbow Six Siege" ∈ dKeys (run_query exUbiCfg (fun _ => some "interrupted") 130
      { server_status := [("Rainbow Six Siege", "online")], last_update := 0,
        is_first_time := false }).1.server_status :=
  (c10_server_status_keys_monotone exUbiCfg (fun _ => some "interrupted") 130
      { server_status := [("Rainbow Six Siege", "online")], last_update := 0,
        is_first_time := false }).1 "Rainbow Six Siege" (by decide)

end SteamStatusBot

namespace SteamStatusBot

/-- C4 counterexample: alice stays playing (`is_pl` true in both baseline and
snapshot) but switches from "GameA" to "GameB".  The claimed behaviour is
changed=true with a transition line; the code compares only `is_pl`
(line 120) and reports no change at all. -/
theorem c4_label_only_change_counterexample :
    user_diff_aux [("alice", ⟨true, some "GameA"⟩)] [("alice", ⟨true, some "GameB"⟩)] false "" =
      some (false, "") := by
  exact rfl

/-- C4 (amended): for every player of the snapshot found in the baseline, the
user loop emits a transition line and marks changed exactly when the
`is_pl` flag differs from the baseline's — the `game` label is never
compared (`userChanged` consults only `is_pl`).  The hypotheses rule out
the two exceptions the loop can raise (`KeyError` for a key missing from
the baseline, `TypeError` for a playing entry with no game label). -/
theorem c4_presence_diff_is_pl_only (b : Dict UserStatus) (snap : Dict UserStatus)
    (dd : Bool) (msg : String)
    (h1 : ∀ p ∈ snap, (dLookup p.1 b).isSome = true)
    (h2 : ∀ p ∈ snap, p.2.is_pl = true → p.2.game.isSome = true) :
    user_diff_aux b snap dd msg =
      some (dd || snap.any (userChanged b),
            msg ++ linesConcat ((snap.filter (userChanged b)).map userLine)) :=
  user_diff_aux_characterization b snap dd msg h1 h2

/-- C4 witness: a genuine `is_pl` transition at a concrete input produces
changed=true and the started-playing line. -/
theorem c4_presence_diff_is_pl_only_witness :
    user_diff_aux [("alice", ⟨false, none⟩)] [("alice", ⟨true, some "Rainbow Six Siege"⟩)]
      false "" = some (true, "alice started playing Rainbow Six Siege.
") := by
  have h := c4_presence_diff_is_pl_only [("alice", ⟨false, none⟩)]
    [("alice", ⟨true, some "Rainbow Six Siege"⟩)] false "" (by decide) (by decide)
  rw [h]
  rfl

/-- C5 counterexample: a snapshot with the key "bob" absent from the user
baseline.  The claimed behaviour is to seed the baseline and complete the
tick normally; the code raises `KeyError` at line 117 and the tick aborts
(`none`) with the state unchanged — nothing is seeded. -/
theorem c5_unseen_key_counterexample :
    define_job_queue exCfg (some [("bob", none)]) (fun _ => some "online") 120 exBaseState =
      (exBaseState, none) := by
  exact rfl

/-- C5 (amended): a snapshot entry whose key is absent from the baseline makes
the user loop raise `KeyError` (`none`): there is no seeding branch, and
the tick does not complete normally. -/
theorem c5_unseen_key_keyerror (b : Dict UserStatus) (snap : Dict UserStatus)
    (dd : Bool) (msg : String) (u : String) (v : UserStatus)
    (hmem : (u, v) ∈ snap) (hnone : dLookup u b = none) :
    user_diff_aux b snap dd msg = none :=
  user_diff_aux_missing_key b snap dd msg u v hmem hnone

/-- C5 witness: a concrete unseen key makes the user loop fail. -/
theorem c5_unseen_key_keyerror_witness :
    user_diff_aux [("alice", ⟨false, none⟩)] [("bob", ⟨false, none⟩)] false "" = none :=
  c5_unseen_key_keyerror [("alice", ⟨false, none⟩)] [("bob", ⟨false, none⟩)] false ""
    "bob" ⟨false, none⟩ (by decide) (by decide)

/-- C6 counterexample: a fresh `UbisoftServerStatusPoller` constructed with
`print_on_first_run=True` returns changed=true and a greeting message on
its very first call, refuting "the first apply always yields
changed=false regardless". -/
theorem c6_first_run_greeting_counterexample :
    pollerCall (Except.ok "online")
      { last_seen_status := none, print_on_first_run := true } =
      ({ last_seen_status := some "online", print_on_first_run := true },
       (true, "Good morning! Server status this lovely day is: online.")) := by
  exact rfl

/-- C6 (amended): on a fresh poller constructed with the default
`print_on_first_run=False`, the first successful call yields changed=false
with an empty message and only seeds `last_seen_status`; with
`print_on_first_run=True` it instead emits a greeting (see the
counterexample). -/
theorem c6_first_call_seeds_quietly (s : String) :
    pollerCall (Except.ok s) { last_seen_status := none, print_on_first_run := false } =
      ({ last_seen_status := some s, print_on_first_run := false }, (false, "")) := by
  exact rfl

/-- C7: applying the same snapshot twice in a row yields changed=false and an
empty message on the second application, for both change detectors.  For
the bot tick: if the user baseline already equals the snapshot produced
from the same raw fetch (as it does right after the first application,
line 126) and the Ubisoft fetches succeed, the second `define_job_queue`
returns `(false, "")`.  For the poller: a second `__call__` seeing the same
fetched status returns `(False, '')` and leaves the state fixed. -/
theorem c7_same_snapshot_twice_idempotent (cfg : BotConfig) (raw : RawUsers)
    (fetchUbi : String → Option String) (now : Nat) (st1 : BotState)
    (new_user : Dict UserStatus) (s : String) (pst : PollerState)
    (hnd : (raw.map Prod.fst).Nodup)
    (hsrv : (dKeys st1.ubi.server_status).Nodup)
    (hgip : get_is_playing cfg.gameSteamIds raw = some new_user)
    (hbase : st1.user_status = new_user)
    (hf : ∀ uid, (fetchUbi uid).isSome = true) :
    (∃ st2, define_job_queue cfg (some raw) fetchUbi now st1 = (st2, some (false, ""))) ∧
    pollerCall (Except.ok s) (pollerCall (Except.ok s) pst).1 =
      ((pollerCall (Except.ok s) pst).1, (false, "")) := by
  constructor
  · have hkeys : dKeys new_user = raw.map Prod.fst :=
      usersFromRaw_keys (build_game_ids cfg.gameSteamIds) raw new_user hgip
    have hnd2 : (dKeys new_user).Nodup := by rw [hkeys]; exact hnd
    have hagree : ∀ p ∈ new_user, dLookup p.1 st1.user_status = some p.2 := by
      rw [hbase]
      exact dLookup_self_of_nodup new_user hnd2
    have hud : user_diff_aux st1.user_status new_user false "" = some (false, "") :=
      user_diff_aux_of_agree st1.user_status new_user false "" hagree
    obtain ⟨ust', hrq, hnodup⟩ := run_query_of_total cfg.ubi fetchUbi now st1.ubi hf
    have hsd : server_diff_aux ust'.server_status ust'.server_status false "" =
        some (false, "") :=
      server_diff_aux_of_agree ust'.server_status ust'.server_status false ""
        (dLookup_self_of_nodup ust'.server_status (hnodup hsrv))
    refine ⟨{ user_status := new_user, ubi := ust' }, ?_⟩
    simp only [define_job_queue, hgip, hud, hrq, hsd]
  · simp [pollerCall]

/-- C7 witness: concrete second applications yielding changed=false for both
detectors. -/
theorem c7_same_snapshot_twice_idempotent_witness :
    (∃ st2, define_job_queue exCfg (some []) (fun _ => some "online") 0
        { user_status := [], ubi := initUbiState 0 } = (st2, some (false, ""))) ∧
    pollerCall (Except.ok "online")
        (pollerCall (Except.ok "online") ⟨none, false⟩).1 =
      ((pollerCall (Except.ok "online") ⟨none, false⟩).1, (false, "")) :=
  c7_same_snapshot_twice_idempotent exCfg [] (fun _ => some "online") 0
    { user_status := [], ubi := initUbiState 0 } [] "online" ⟨none, false⟩
    (by decide) (by decide) rfl rfl (fun _ => rfl)

/-- C8: a player whose raw activity id is not a key of the tracked-games
allow-list is mapped to `is_pl=false` with no game label, without any
error: the per-player mapping returns that value (never `none`), and
`get_is_playing` on the whole fetch succeeds with that entry for the
player. -/
theorem c8_untracked_activity_inactive (gcfg : List (String × String)) (raw : RawUsers)
    (u : String) (gid : String)
    (hmem : (u, some gid) ∈ raw)
    (huntracked : (dKeys (build_game_ids gcfg)).contains gid = false) :
    is_pl_valid_entry (build_game_ids gcfg) (some gid) = some ⟨false, none⟩ ∧
    ∃ l, get_is_playing gcfg raw = some l ∧ (u, (⟨false, none⟩ : UserStatus)) ∈ l := by
  have hentry : is_pl_valid_entry (build_game_ids gcfg) (some gid) = some ⟨false, none⟩ := by
    simp only [is_pl_valid_entry]
    rw [if_neg (by simpa using huntracked)]
  refine ⟨hentry, ?_⟩
  obtain ⟨l, hl⟩ := Option.isSome_iff_exists.mp
    (usersFromRaw_isSome (build_game_ids gcfg) raw)
  refine ⟨l, hl, ?_⟩
  obtain ⟨v, hv1, hv2⟩ := usersFromRaw_mem (build_game_ids gcfg) raw l u (some gid) hl hmem
  rw [hentry] at hv1
  cases hv1
  exact hv2

/-- C8 witness: a concrete player playing an untracked game maps to
`is_pl=false` and `get_is_playing` succeeds. -/
theorem c8_untracked_activity_inactive_witness :
    is_pl_valid_entry (build_game_ids [("Rainbow Six Siege", "359550")]) (some "999") =
      some ⟨false, none⟩ ∧
    ∃ l, get_is_playing [("Rainbow Six Siege", "359550")] [("alice", some "999")] = some l ∧
      ("alice", (⟨false, none⟩ : UserStatus)) ∈ l :=
  c8_untracked_activity_inactive [("Rainbow Six Siege", "359550")] [("alice", some "999")]
    "alice" "999" (by decide) (by decide)

end SteamStatusBot
